import Mathlib

/-!
Shallow embedding of the casbin async SQLAlchemy adapter
(`casbin_async_sqlalchemy_adapter/adapter.py`).

Rows of the `casbin_rule` table are records with six optional string
fields; the database is a list of rows (physical storage order, which a
plain SELECT without ORDER BY returns as-is) together with the next
surrogate id the storage will assign.  Each adapter operation is a pure
function on this state; operations that can raise (SQLAlchemy
`NoResultFound`/`MultipleResultsFound`, Python `AttributeError`/
`IndexError`, SQLAlchemy compile errors on unknown bulk-insert columns)
return `Except`, which also models the internal session's
rollback-on-exception (an error leaves the state unchanged).
-/

namespace CasbinAdapter

abbrev Rule := List String

/-- One row of the `casbin_rule` table (class `CasbinRule` / a custom
`db_class`): surrogate `id`, `ptype` tag, six nullable string columns
`v0..v5`, and the soft-delete flag column (only consulted when
soft-delete mode is configured; defaults to false at creation). -/
structure CasbinRule where
  id : Nat
  ptype : String
  v0 : Option String
  v1 : Option String
  v2 : Option String
  v3 : Option String
  v4 : Option String
  v5 : Option String
  deleted : Bool
deriving Repr, DecidableEq

namespace CasbinRule

/-- The list `[line.v0, line.v1, line.v2, line.v3, line.v4, line.v5]`
(`fields_with_None` in `save_policy` / `_update_filtered_policies`). -/
def fieldsList (r : CasbinRule) : List (Option String) :=
  [r.v0, r.v1, r.v2, r.v3, r.v4, r.v5]

/-- `getattr(line, "v{i}")`: column `v_i`; indices beyond 5 have no
column. -/
def getV (r : CasbinRule) : Nat → Option String
  | 0 => r.v0
  | 1 => r.v1
  | 2 => r.v2
  | 3 => r.v3
  | 4 => r.v4
  | 5 => r.v5
  | _ => none

/-- `setattr(line, "v{i}", v)` on a row instance: sets column `v_i`;
for `i > 5` Python just creates a non-column instance attribute, which
is never persisted, so the stored row is unchanged. -/
def setV (r : CasbinRule) (i : Nat) (v : Option String) : CasbinRule :=
  match i with
  | 0 => { r with v0 := v }
  | 1 => { r with v1 := v }
  | 2 => { r with v2 := v }
  | 3 => { r with v3 := v }
  | 4 => { r with v4 := v }
  | 5 => { r with v5 := v }
  | _ => r

/-- Tuple reconstruction used by `save_policy` and
`_update_filtered_policies`:
`[element for element in fields_with_None if element is not None]`
(drops every NULL, wherever it sits). -/
def ruleOf (r : CasbinRule) : Rule :=
  r.fieldsList.filterMap (fun v => v)

/-- The tokens of `__str__`: `ptype` followed by each field value,
stopping at the first NULL (`if v is None: break`).  `load_policy`
feeds the comma-join of these tokens to `persist.load_policy_line`. -/
def lineTokens (r : CasbinRule) : List String :=
  r.ptype :: ((r.fieldsList.takeWhile Option.isSome).filterMap (fun v => v))

end CasbinRule

/-- The stored table: rows in physical storage order (the order an
unordered SELECT enumerates them in) plus the next id the storage
assigns on insert. -/
structure DB where
  rows : List CasbinRule
  nextId : Nat
deriving Repr, DecidableEq

/-- Rows returned by `select(db_class)` after `_softdelete_query`:
when soft-delete is configured the statement gets
`.where(not_(flag))`; otherwise it is passed through unchanged. -/
def DB.visibleRows (db : DB) (soft : Bool) : List CasbinRule :=
  if soft then db.rows.filter (fun r => !r.deleted) else db.rows

/-- The row built by `_save_policy_line`:
`line = db_class(ptype=ptype)` then `setattr(line, "v{i}", v)` for each
`i, v` in `enumerate(rule)` — so `v_i` is `rule[i]` for `i < len(rule)`
(values past index 5 only create non-column attributes), the remaining
columns stay NULL, and the soft-delete flag keeps its default false. -/
def mkLine (idv : Nat) (pt : String) (rule : Rule) : CasbinRule :=
  { id := idv, ptype := pt, v0 := rule[0]?, v1 := rule[1]?, v2 := rule[2]?,
    v3 := rule[3]?, v4 := rule[4]?, v5 := rule[5]?, deleted := false }

/-- `_save_policy_line(ptype, rule)`: adds one freshly built row; the
storage assigns the next surrogate id. -/
def save_policy_line (db : DB) (pt : String) (rule : Rule) : DB :=
  { rows := db.rows ++ [mkLine db.nextId pt rule], nextId := db.nextId + 1 }

/-- The `Filter` class: seven acceptance lists, all empty by default. -/
structure Filter where
  ptype : List String := []
  v0 : List String := []
  v1 : List String := []
  v2 : List String := []
  v3 : List String := []
  v4 : List String := []
  v5 : List String := []
deriving Repr, DecidableEq

/-- Row-level semantics of one `filter_query` slot: an empty acceptance
list adds no `.in_` restriction; a non-empty list requires the column
value to be one of its members (a NULL column is never IN a value
list). -/
def slotMatch (vals : List String) (v : Option String) : Bool :=
  vals.isEmpty ||
    (match v with
     | some s => vals.contains s
     | none => false)

/-- Row-level semantics of `filter_query(stmt, filter)`: the
conjunction of the slot restrictions for `ptype` and `v0..v5`
(`ptype` is a non-null column, so its slot is plain membership). -/
def matchesFilter (r : CasbinRule) (f : Filter) : Bool :=
  (f.ptype.isEmpty || f.ptype.contains r.ptype) &&
  slotMatch f.v0 r.v0 && slotMatch f.v1 r.v1 && slotMatch f.v2 r.v2 &&
  slotMatch f.v3 r.v3 && slotMatch f.v4 r.v4 && slotMatch f.v5 r.v5

/-- The value-match predicate every mutation path builds with
`for index, value in enumerate(rule): stmt.where(v_index == value)`:
column `v_i` equals `rule[i]` for each supplied index (later columns
are unconstrained). -/
def valuesMatch (r : CasbinRule) (rule : Rule) : Bool :=
  rule.enum.all (fun iv => r.getV iv.1 == some iv.2)

/-- Equality of `Except` outcomes is decidable when both components'
equality is (used to evaluate operations at concrete inputs). -/
def exceptDecEq {ε α : Type} [DecidableEq ε] [DecidableEq α] :
    DecidableEq (Except ε α) := fun a b =>
  match a, b with
  | .error e1, .error e2 =>
    if h : e1 = e2 then .isTrue (by rw [h]) else .isFalse (fun hc => h (Except.error.inj hc))
  | .ok x, .ok y =>
    if h : x = y then .isTrue (by rw [h]) else .isFalse (fun hc => h (Except.ok.inj hc))
  | .error _, .ok _ => .isFalse (fun hc => Except.noConfusion hc)
  | .ok _, .error _ => .isFalse (fun hc => Except.noConfusion hc)

instance {ε α : Type} [DecidableEq ε] [DecidableEq α] : DecidableEq (Except ε α) :=
  exceptDecEq

/-- Exceptions the adapter's operations can raise. -/
inductive Err where
  /-- SQLAlchemy `NoResultFound` from `scalar_one()`. -/
  | noResultFound
  /-- SQLAlchemy `MultipleResultsFound` from `scalar_one()` /
  `scalar_one_or_none()`. -/
  | multipleResultsFound
  /-- Python `AttributeError` from `getattr(db_class, "v6")` etc. -/
  | attributeError
  /-- Python `IndexError` (e.g. `ptype[0]` on an empty tag,
  `new_rules[i]` past the end). -/
  | indexError
  /-- SQLAlchemy compile error: bulk-insert row dict naming a column
  the table does not have. -/
  | compileError
deriving Repr, DecidableEq

/-- Insertion into a list sorted by ascending `id` (row-level semantics
of `order_by(db_class.id)`). -/
def insertById (r : CasbinRule) : List CasbinRule → List CasbinRule
  | [] => [r]
  | x :: xs => if r.id ≤ x.id then r :: x :: xs else x :: insertById r xs

/-- Sort rows by ascending `id` (`order_by(db_class.id)`, appended by
`filter_query` to every filtered query). -/
def sortById : List CasbinRule → List CasbinRule
  | [] => []
  | x :: xs => insertById x (sortById xs)

/-- `load_policy(model)`: one line per row of
`select(db_class)` + `_softdelete_query` — note the statement requests
no ordering — each rendered by `__str__` and handed to
`persist.load_policy_line`. -/
def load_policy (soft : Bool) (db : DB) : List (List String) :=
  (db.visibleRows soft).map CasbinRule.lineTokens

/-- `setattr(line, flag_name, True)` flushed through the ORM: flag the
row with the given primary key as soft-deleted. -/
def DB.setDeleted (db : DB) (idv : Nat) : DB :=
  { db with rows := db.rows.map (fun r => if r.id = idv then { r with deleted := true } else r) }

def DB.setDeletedMany (db : DB) (ids : List Nat) : DB :=
  ids.foldl DB.setDeleted db

/-- Replace the row with the given primary key (an ORM object mutation
flushed as an UPDATE by primary key). -/
def DB.updateRow (db : DB) (idv : Nat) (r2 : CasbinRule) : DB :=
  { db with rows := db.rows.map (fun x => if x.id = idv then r2 else x) }

/-- `add_policy(sec, ptype, rule)`: one `_save_policy_line` insert; the
`sec` argument is never consulted. -/
def add_policy (sec pt : String) (rule : Rule) (db : DB) : DB :=
  save_policy_line db pt rule

/-- `add_policies(sec, ptype, rules)`: no-op on empty input, otherwise
one bulk insert of row dicts `{ptype, v0.., v_i: rule[i]..}`.  A rule
longer than six values puts a key like `v6` in its dict, which the
insert statement cannot compile against the table, so the whole call
fails before inserting anything. -/
def add_policies (sec pt : String) (rules : List Rule) (db : DB) : Except Err DB :=
  if rules.isEmpty then .ok db
  else if rules.any (fun r => 6 < r.length) then .error .compileError
  else .ok (rules.foldl (fun d r => save_policy_line d pt r) db)

/-- `remove_policy(sec, ptype, rule)`: hard mode issues a DELETE
restricted by `ptype` and the per-index value equalities and reports
`rowcount > 0`; soft mode loads the matching not-deleted rows, flags
each, and reports whether any was flagged.  A rule longer than six
values hits `getattr(db_class, "v6")` while the statement is being
built. -/
def remove_policy (soft : Bool) (sec pt : String) (rule : Rule) (db : DB) :
    Except Err (Bool × DB) :=
  if 6 < rule.length then .error .attributeError
  else if soft then
    let lines := (db.visibleRows true).filter (fun r => r.ptype == pt && valuesMatch r rule)
    .ok (!lines.isEmpty, db.setDeletedMany (lines.map (fun r => r.id)))
  else
    let removed := db.rows.filter (fun r => r.ptype == pt && valuesMatch r rule)
    .ok (!removed.isEmpty,
      { db with rows := db.rows.filter (fun r => !(r.ptype == pt && valuesMatch r rule)) })

/-- Length of `zip(*rules)`: the shortest rule's length. -/
def zipLen : List Rule → Nat
  | [] => 0
  | [r] => r.length
  | r :: rs => min r.length (zipLen rs)

/-- The bulk predicate `remove_policies` builds from `zip(*rules)`:
for each index `i` below the shortest rule's length, column `v_i` must
equal ANY of the values the batch supplies at position `i`
(`or_(v_i == v for v in rule)`) — an over-approximating per-field OR,
not an exact per-tuple match. -/
def bulkValuesMatch (rules : List Rule) (r : CasbinRule) : Bool :=
  (List.range (zipLen rules)).all (fun i =>
    (rules.filterMap (fun ru => ru[i]?)).any (fun v => r.getV i == some v))

/-- `remove_policies(sec, ptype, rules)`: no-op on empty input; applies
the bulk OR-of-values predicate under the active deletion strategy.
If every rule is longer than six values the statement construction
hits `getattr(db_class, "v6")`. -/
def remove_policies (soft : Bool) (sec pt : String) (rules : List Rule) (db : DB) :
    Except Err DB :=
  if rules.isEmpty then .ok db
  else if 6 < zipLen rules then .error .attributeError
  else if soft then
    let lines := (db.visibleRows true).filter (fun r => r.ptype == pt && bulkValuesMatch rules r)
    .ok (db.setDeletedMany (lines.map (fun r => r.id)))
  else
    .ok { db with rows := db.rows.filter (fun r => !(r.ptype == pt && bulkValuesMatch rules r)) }

/-- The predicate `remove_filtered_policy` builds: `ptype` equality,
and for each `i, v` in `enumerate(field_values)` with `v != ""` the
equality `v_{field_index+i} == v` (an empty-string value adds no
restriction). -/
def rfpMatch (pt : String) (fi : Int) (vals : List String) (r : CasbinRule) : Bool :=
  r.ptype == pt &&
    vals.enum.all (fun iv =>
      iv.2 == "" || r.getV (fi + (iv.1 : Int)).toNat == some iv.2)

/-- `remove_filtered_policy(sec, ptype, field_index, *field_values)`:
returns `False` without touching anything unless
`0 <= field_index <= 5` and `1 <= field_index + len(field_values) <= 6`;
otherwise deletes (hard) or flags (soft) the rows matching `rfpMatch`
and reports whether any row was affected. -/
def remove_filtered_policy (soft : Bool) (sec pt : String) (fi : Int)
    (vals : List String) (db : DB) : Bool × DB :=
  if ¬(0 ≤ fi ∧ fi ≤ 5) then (false, db)
  else if ¬(1 ≤ fi + (vals.length : Int) ∧ fi + (vals.length : Int) ≤ 6) then (false, db)
  else if soft then
    let lines := (db.visibleRows true).filter (rfpMatch pt fi vals)
    (!lines.isEmpty, db.setDeletedMany (lines.map (fun r => r.id)))
  else
    let removed := db.rows.filter (rfpMatch pt fi vals)
    (!removed.isEmpty, { db with rows := db.rows.filter (fun r => !(rfpMatch pt fi vals r)) })

/-- The overwrite loop of `update_policy`: for each index below the
longer rule's length, set `v_index` to `new_rule[index]` when the index
is within `new_rule`, otherwise back to NULL (indices past 5 only
touch non-column attributes, leaving the stored row as-is). -/
def overwriteRow (r : CasbinRule) (old_rule new_rule : Rule) : CasbinRule :=
  let longest := if new_rule.length < old_rule.length then old_rule.length else new_rule.length
  (List.range longest).foldl
    (fun r2 i =>
      if i < new_rule.length then r2.setV i (some (new_rule.getD i ""))
      else r2.setV i none) r

/-- `update_policy(sec, ptype, old_rule, new_rule)`: locate the
not-deleted row matching `ptype` and `old_rule`'s per-index values;
`scalar_one()` raises when zero or several rows match; otherwise the
located row is overwritten in place. -/
def update_policy (soft : Bool) (sec pt : String) (old_rule new_rule : Rule) (db : DB) :
    Except Err DB :=
  if 6 < old_rule.length then .error .attributeError
  else
    match (db.visibleRows soft).filter (fun r => r.ptype == pt && valuesMatch r old_rule) with
    | [] => .error .noResultFound
    | [r] => .ok (db.updateRow r.id (overwriteRow r old_rule new_rule))
    | _ => .error .multipleResultsFound

/-- `update_policies(sec, ptype, old_rules, new_rules)`: applies
`update_policy` pairwise for `i in range(len(old_rules))`;
`new_rules[i]` raises `IndexError` when the new list is shorter. -/
def update_policies (soft : Bool) (sec pt : String) (old_rules new_rules : List Rule)
    (db : DB) : Except Err DB :=
  (List.range old_rules.length).foldlM
    (fun d i =>
      match new_rules[i]? with
      | none => Except.error Err.indexError
      | some nr => update_policy soft sec pt (old_rules.getD i []) nr d) db

/-- Modelled from the spec (§1, §4.6): the policy-evaluation engine's
in-memory model — an external collaborator, not part of this
repository's source.  Two tracked sections map policy-type tags to
their rule lists; `hasPolicy` is exact rule membership ("ask the policy
engine whether it still holds that exact rule in that section"). -/
structure Model where
  sections : List (String × List (String × List Rule))
deriving Repr, DecidableEq

def Model.lookupSec (m : Model) (sec : String) : Option (List (String × List Rule)) :=
  (m.sections.find? (fun sp => sp.1 == sec)).map (fun sp => sp.2)

/-- Modelled from the spec: `model.has_policy(sec, ptype, rule)` of the
engine — true iff the section exists, holds the tag, and the tag's
rule list contains exactly this rule. -/
def Model.hasPolicy (m : Model) (sec pt : String) (rule : Rule) : Bool :=
  match m.lookupSec sec with
  | none => false
  | some pts =>
    match pts.find? (fun ptp => ptp.1 == pt) with
    | none => false
    | some ptp => ptp.2.contains rule

/-- The `(sec, ptype, rule)` triples `save_policy` iterates:
`for sec in ["p", "g"]` (skipping an absent section), tag by tag, rule
by rule, in the model's own order. -/
def modelEntries (m : Model) : List (String × String × Rule) :=
  ((["p", "g"].map (fun sec =>
    match m.lookupSec sec with
    | none => []
    | some pts => (pts.map (fun ptp => ptp.2.map (fun r => (sec, ptp.1, r)))).flatten)).flatten)

/-- Hard-delete `save_policy`: `delete(db_class)` removes every row,
then one `_save_policy_line` insert per model entry. -/
def save_policy_hard (db : DB) (m : Model) : DB :=
  (modelEntries m).foldl (fun d e => save_policy_line d e.2.1 e.2.2)
    { rows := [], nextId := db.nextId }

/-- One step of the soft-mode insert phase: filter the not-deleted rows
for `ptype == pt` plus the per-index value equalities of the rule
(`getattr(db_class, "v6")` raises for a rule longer than six values);
`scalar_one_or_none()` yields nothing (insert), one row (skip), or
raises `MultipleResultsFound`.  The query runs against the session,
whose autoflush makes rows inserted earlier in the same save visible. -/
def insertStep (db : DB) (e : String × String × Rule) : Except Err DB :=
  if 6 < e.2.2.length then .error .attributeError
  else
    match (db.visibleRows true).filter (fun r => r.ptype == e.2.1 && valuesMatch r e.2.2) with
    | [] => .ok (save_policy_line db e.2.1 e.2.2)
    | [_] => .ok db
    | _ => .error .multipleResultsFound

/-- One step of the soft-mode flag phase: derive the section from the
first character of the snapshot row's tag (`ptype[0]` raises
`IndexError` on an empty tag), rebuild the rule by dropping NULL
fields, and flag the row unless the engine still holds that rule. -/
def flagStep (m : Model) (db : DB) (line : CasbinRule) : Except Err DB :=
  if line.ptype = "" then .error .indexError
  else if m.hasPolicy (line.ptype.take 1) line.ptype line.ruleOf then .ok db
  else .ok (db.setDeleted line.id)

/-- Soft-delete `save_policy`: snapshot the not-deleted rows, run the
insert phase over every model entry, then the flag phase over the
snapshot.  An exception anywhere rolls the internal session back, so an
error outcome carries no state change. -/
def save_policy_soft (db : DB) (m : Model) : Except Err DB := do
  let lines_before_changes := db.visibleRows true
  let db1 ← (modelEntries m).foldlM insertStep db
  lines_before_changes.foldlM (flagStep m) db1

/-- `save_policy(model)`: dispatches on whether a soft-delete attribute
is configured. -/
def save_policy (soft : Bool) (db : DB) (m : Model) : Except Err DB :=
  if soft then save_policy_soft db m else .ok (save_policy_hard db m)

/-- The character-wise expansion SQLAlchemy's `.in_()` performs on a
plain Python string: a `str` is a sequence of one-character strings, so
`column.in_("abc")` restricts the column to `'a'`, `'b'`, `'c'`.
`update_filtered_policies` assigns plain strings (not lists) to its
`Filter`'s slots, so this is how `filter_query` consumes them. -/
def strChars (s : String) : List String :=
  s.data.map (fun c => String.singleton c)

/-- `setattr(filter, "v{i}", vals)`: slots past 5 only create unused
instance attributes (`filter_query` reads just `ptype`, `v0..v5`). -/
def Filter.setSlot (f : Filter) (i : Nat) (vals : List String) : Filter :=
  match i with
  | 0 => { f with v0 := vals }
  | 1 => { f with v1 := vals }
  | 2 => { f with v2 := vals }
  | 3 => { f with v3 := vals }
  | 4 => { f with v4 := vals }
  | 5 => { f with v5 := vals }
  | _ => f

/-- The slot-filling loop of `update_filtered_policies`:
`for i in range(len(field_values))`, assign
`filter.v{i} = field_values[i - field_index]` while
`field_index <= i < field_index + len(field_values)` holds, and
`break` out of the loop the first time it does not (so for
`field_index > 0` the very first iteration breaks and no slot is ever
assigned).  Each assigned slot holds a plain string, which `.in_()`
later expands character-wise. -/
def buildFilterSlots (fi : Int) (vals : List String) (f0 : Filter) : Filter :=
  ((List.range vals.length).foldl
    (fun st i =>
      if st.2 then st
      else if fi ≤ (i : Int) ∧ (i : Int) < fi + (vals.length : Int) then
        (st.1.setSlot i (strChars (vals.getD ((( i : Int) - fi).toNat) "")), false)
      else (st.1, true))
    (f0, false)).1

/-- `update_filtered_policies(sec, ptype, new_rules, field_index,
*field_values)` followed by `_update_filtered_policies`: build the
Filter (`filter.ptype = ptype`, a plain string, plus the slot-filling
loop), load the not-deleted rows satisfying both
`db_class.ptype == filter.ptype` and `filter_query` (ordered by `id`),
rebuild their rules, remove them through `remove_policies("p", ...)`,
insert the new rules through `add_policies("p", ...)`, and return the
removed rules. -/
def update_filtered_policies (soft : Bool) (sec pt : String) (new_rules : List Rule)
    (fi : Int) (vals : List String) (db : DB) : Except Err (List Rule × DB) := do
  let f := buildFilterSlots fi vals { ptype := strChars pt }
  let old_rules_db := sortById
    ((db.visibleRows soft).filter (fun r => r.ptype == pt && matchesFilter r f))
  let old_rules := old_rules_db.map CasbinRule.ruleOf
  let db1 ← remove_policies soft "p" pt old_rules db
  let db2 ← add_policies "p" pt new_rules db1
  return (old_rules, db2)

/-- A custom `db_class` as the constructor sees it: the set of
attribute names `hasattr` finds on it. -/
structure DbClassSpec where
  attrs : List String
deriving Repr, DecidableEq

/-- A `db_class_softdelete_attribute` argument: a column object whose
`.type` either is or is not SQLAlchemy's `Boolean`. -/
structure SoftdeleteAttr where
  name : String
  typeIsBoolean : Bool
deriving Repr, DecidableEq

/-- Construction failures of `Adapter.__init__`. -/
inductive InitError where
  /-- `ValueError`: the soft-delete attribute's column type is not
  `Boolean`. -/
  | valueError
  /-- `Exception("{attr} not found in custom DatabaseClass.")`. -/
  | missingAttr (a : String)
deriving Repr, DecidableEq

/-- The configuration a successful construction produces (the parts
the persistence semantics depend on). -/
structure AdapterConfig where
  softdeleteAttribute : Option SoftdeleteAttr
  filtered : Bool
deriving Repr, DecidableEq

/-- The attributes `__init__` requires of a custom class:
`("id", "ptype", "v0", ..., "v5")`. -/
def requiredAttrs : List String :=
  ["id", "ptype", "v0", "v1", "v2", "v3", "v4", "v5"]

/-- `Adapter.__init__(engine, db_class, db_class_softdelete_attribute,
filtered)`: with `db_class=None` the default `CasbinRule` class is used
and — `self.softdelete_attribute` having just been set to `None` — the
soft-delete argument is never examined ("Softdelete is only supported
when using custom class").  With a custom class, a non-Boolean
soft-delete column type raises `ValueError` first, then each required
attribute is checked with `hasattr`. -/
def adapterInit (db_class : Option DbClassSpec)
    (db_class_softdelete_attribute : Option SoftdeleteAttr)
    (filtered : Bool) : Except InitError AdapterConfig :=
  match db_class with
  | none => .ok { softdeleteAttribute := none, filtered := filtered }
  | some cls =>
    let typeOk := match db_class_softdelete_attribute with
      | some a => a.typeIsBoolean
      | none => true
    if !typeOk then .error .valueError
    else
      match requiredAttrs.find? (fun attr => !cls.attrs.contains attr) with
      | some a => .error (.missingAttr a)
      | none => .ok { softdeleteAttribute := db_class_softdelete_attribute, filtered := filtered }

/-- The row-shape invariant of §3: field slots are trailing-unset —
no slot is present while an earlier slot is unset. -/
def RowShapeOk (r : CasbinRule) : Prop :=
  ∀ k : Nat, k < 6 → ∀ j : Nat, j < k → r.getV j = none → r.getV k = none

instance (r : CasbinRule) : Decidable (RowShapeOk r) := by
  unfold RowShapeOk; infer_instance

/-- Every stored row is trailing-unset. -/
def DBShapeOk (db : DB) : Prop :=
  ∀ r ∈ db.rows, RowShapeOk r

instance (db : DB) : Decidable (DBShapeOk db) := by
  unfold DBShapeOk; infer_instance

/-! ### Concrete stores and models used by the examples below -/

/-- A soft-deleted copy of a freshly built row. -/
def mkDelLine (idv : Nat) (pt : String) (rule : Rule) : CasbinRule :=
  { (mkLine idv pt rule) with deleted := true }

/-- Store with one flagged row (id 1) and one visible row (id 2). -/
def exDbFlagged : DB :=
  { rows := [mkDelLine 1 "p" ["a"], mkLine 2 "p" ["b"]], nextId := 3 }

/-- Empty store. -/
def exDb0 : DB := { rows := [], nextId := 0 }

/-- Engine model holding the single rule `p, ["a"]`. -/
def exModelA : Model := { sections := [("p", [("p", [["a"]])])] }

/-- Store after saving `exModelA` into the empty store (hard mode). -/
def exDbA1 : DB := { rows := [mkLine 0 "p" ["a"]], nextId := 1 }

/-- Store after saving `exModelA` a second time (hard mode): the same
tuple, but a physically fresh row. -/
def exDbA2 : DB := { rows := [mkLine 1 "p" ["a"]], nextId := 2 }

/-- Engine model holding the single rule `p, ["a", "b"]`. -/
def exModelAB : Model := { sections := [("p", [("p", [["a", "b"]])])] }

/-- Store with one visible row `(p, a, b, c)`. -/
def exDbABC : DB := { rows := [mkLine 1 "p" ["a", "b", "c"]], nextId := 2 }

/-- `exDbABC` with its only row soft-deleted. -/
def exDbABCFlagged : DB := { rows := [mkDelLine 1 "p" ["a", "b", "c"]], nextId := 2 }

/-- `exDbABCFlagged` after a second soft-mode save of `exModelAB`:
the second run does insert a row for `["a", "b"]`. -/
def exDbABCFlagged2 : DB :=
  { rows := [mkDelLine 1 "p" ["a", "b", "c"], mkLine 2 "p" ["a", "b"]], nextId := 3 }

/-- Store with one visible row `(p, bob, data2, write)`. -/
def exDbBob : DB := { rows := [mkLine 1 "p" ["bob", "data2", "write"]], nextId := 2 }

/-- The invalid-shape row `(p, x, NULL, c)` that updating
`["a", "b"]` to `["x"]` leaves behind on the `(p, a, b, c)` row. -/
def exDbBroken : DB :=
  { rows := [⟨1, "p", some "x", none, some "c", none, none, none, false⟩], nextId := 2 }

/-- The row `(p, x, y)` left by updating `["a", "b", "c"]` to
`["x", "y"]`. -/
def exDbXY : DB :=
  { rows := [⟨1, "p", some "x", some "y", none, none, none, none, false⟩], nextId := 2 }

/-! ## Helper lemmas -/

theorem getV_ge_six (r : CasbinRule) (j : Nat) (h : 6 ≤ j) : r.getV j = none := by
  rcases j with _|_|_|_|_|_|j <;> first | omega | rfl

theorem mkLine_getV (idv : Nat) (pt : String) (rule : Rule) (j : Nat) :
    (mkLine idv pt rule).getV j = if j < 6 then rule[j]? else none := by
  rcases j with _|_|_|_|_|_|j <;>
    simp [mkLine, CasbinRule.getV] <;>
    exact (if_neg (by omega)).symm

theorem slotMatch_mono {vals1 vals2 : List String} (hsub : vals1 ⊆ vals2)
    (hne : vals2 ≠ [] → vals1 ≠ []) (v : Option String)
    (h : slotMatch vals1 v = true) : slotMatch vals2 v = true := by
  unfold slotMatch at h ⊢
  rcases hv2 : vals2 with _ | ⟨a, l⟩
  · rfl
  · rw [hv2] at hsub hne
    have h1 : vals1 ≠ [] := hne (by simp)
    rw [Bool.or_eq_true] at h
    rcases h with h | h
    · exact absurd (List.isEmpty_iff.mp h) h1
    · rcases v with _ | s
      · simp at h
      · exact Bool.or_inr (List.elem_eq_true_of_mem (hsub (List.mem_of_elem_eq_true h)))

theorem all_enum_iff {α : Type} (p : Nat × α → Bool) (l : List α) :
    (l.enum.all p = true) ↔ ∀ (i : Nat) (_ : i < l.length), p (i, l[i]) = true := by
  rw [List.all_eq_true, List.forall_mem_enum]

/-- Per-index reading of the value-match predicate. -/
theorem valuesMatch_iff (r : CasbinRule) (rule : Rule) :
    valuesMatch r rule = true ↔
      ∀ (i : Nat) (_ : i < rule.length), r.getV i = some (rule[i]) := by
  unfold valuesMatch
  rw [all_enum_iff]
  simp

/-- Per-index reading of the filtered-deletion predicate: an
empty-string value never constrains its position. -/
theorem rfpMatch_iff (pt : String) (fi : Int) (vals : List String) (r : CasbinRule) :
    rfpMatch pt fi vals r = true ↔
      (r.ptype = pt ∧ ∀ (i : Nat) (_ : i < vals.length),
        vals[i] ≠ "" → r.getV (fi + (i : Int)).toNat = some (vals[i])) := by
  unfold rfpMatch
  rw [Bool.and_eq_true, all_enum_iff]
  simp [or_iff_not_imp_left]

theorem getV_setV (r : CasbinRule) (i j : Nat) (v : Option String) :
    (r.setV i v).getV j = if j < 6 ∧ i = j then v else r.getV j := by
  rcases i with _|_|_|_|_|_|i <;> rcases j with _|_|_|_|_|_|j <;>
    simp [CasbinRule.setV, CasbinRule.getV] <;>
    exact (if_neg (by omega)).symm

/-- What the overwrite loop of `update_policy` does to each column:
positions below the longer rule's length receive `new_rule`'s value
there (NULL past `new_rule`'s end); higher positions are untouched. -/
theorem overwriteRow_getV (r : CasbinRule) (old_rule new_rule : Rule) (j : Nat) :
    (overwriteRow r old_rule new_rule).getV j =
      if j < max old_rule.length new_rule.length ∧ j < 6 then new_rule[j]?
      else r.getV j := by
  have hstep : ∀ (r2 : CasbinRule) (i j2 : Nat),
      ((if i < new_rule.length then r2.setV i (some (new_rule.getD i ""))
        else r2.setV i none).getV j2) =
      if j2 < 6 ∧ i = j2 then new_rule[j2]? else r2.getV j2 := by
    intro r2 i j2
    by_cases hi : i < new_rule.length
    · rw [if_pos hi, getV_setV]
      by_cases hc : j2 < 6 ∧ i = j2
      · rw [if_pos hc, if_pos hc]
        rcases hc with ⟨h6, rfl⟩
        simp [List.getD_eq_getElem?_getD, List.getElem?_eq_getElem hi]
      · rw [if_neg hc, if_neg hc]
    · rw [if_neg hi, getV_setV]
      by_cases hc : j2 < 6 ∧ i = j2
      · rw [if_pos hc, if_pos hc]
        rcases hc with ⟨h6, rfl⟩
        exact (List.getElem?_eq_none (by omega)).symm
      · rw [if_neg hc, if_neg hc]
  have hfold : ∀ (n : Nat) (r2 : CasbinRule) (j2 : Nat),
      (((List.range n).foldl
        (fun r3 i =>
          if i < new_rule.length then r3.setV i (some (new_rule.getD i ""))
          else r3.setV i none) r2).getV j2) =
      if j2 < n ∧ j2 < 6 then new_rule[j2]? else r2.getV j2 := by
    intro n
    induction n with
    | zero => intro r2 j2; simp
    | succ n ih =>
      intro r2 j2
      rw [List.range_succ, List.foldl_append, List.foldl_cons, List.foldl_nil, hstep, ih]
      split_ifs <;> first | rfl | omega
  unfold overwriteRow
  rw [hfold]
  have hmax : (if new_rule.length < old_rule.length then old_rule.length
      else new_rule.length) = max old_rule.length new_rule.length := by
    split <;> omega
  rw [hmax]

/-! ## C3: filter monotonicity -/

/-- **C3, counterexample.**  Slot-wise subset inclusion of acceptance
sets does NOT make filter matching monotone: the all-empty filter's
slots are subsets of any filter's slots, and the row `(p, y)` matches
the all-empty filter, yet fails the filter accepting only `x` at `v0`
— an empty acceptance set means "no constraint", not "accept
nothing", so growing a slot from empty to non-empty strengthens the
filter. -/
theorem C3_filter_monotonicity_cex :
    ¬ (∀ (r : CasbinRule) (f1 f2 : Filter),
        f1.ptype ⊆ f2.ptype → f1.v0 ⊆ f2.v0 → f1.v1 ⊆ f2.v1 → f1.v2 ⊆ f2.v2 →
        f1.v3 ⊆ f2.v3 → f1.v4 ⊆ f2.v4 → f1.v5 ⊆ f2.v5 →
        matchesFilter r f1 = true → matchesFilter r f2 = true) := by
  intro hclaim
  have h := hclaim (mkLine 1 "p" ["y"]) {} { v0 := ["x"] }
    (List.nil_subset _) (List.nil_subset _) (List.nil_subset _) (List.nil_subset _)
    (List.nil_subset _) (List.nil_subset _) (List.nil_subset _) (by decide)
  exact absurd h (by decide)

/-- **C3, amended.**  Filter matching is monotone under slot-wise
subset inclusion provided no slot of `F1` is empty while the
corresponding slot of `F2` is non-empty (an empty acceptance set
imposes no constraint, so it is the weakest slot, not the smallest). -/
theorem C3_filter_monotonicity_amended (r : CasbinRule) (f1 f2 : Filter)
    (hp : f1.ptype ⊆ f2.ptype) (hpe : f2.ptype ≠ [] → f1.ptype ≠ [])
    (h0 : f1.v0 ⊆ f2.v0) (h0e : f2.v0 ≠ [] → f1.v0 ≠ [])
    (h1 : f1.v1 ⊆ f2.v1) (h1e : f2.v1 ≠ [] → f1.v1 ≠ [])
    (h2 : f1.v2 ⊆ f2.v2) (h2e : f2.v2 ≠ [] → f1.v2 ≠ [])
    (h3 : f1.v3 ⊆ f2.v3) (h3e : f2.v3 ≠ [] → f1.v3 ≠ [])
    (h4 : f1.v4 ⊆ f2.v4) (h4e : f2.v4 ≠ [] → f1.v4 ≠ [])
    (h5 : f1.v5 ⊆ f2.v5) (h5e : f2.v5 ≠ [] → f1.v5 ≠ [])
    (hm : matchesFilter r f1 = true) : matchesFilter r f2 = true := by
  unfold matchesFilter at hm ⊢
  simp only [Bool.and_eq_true] at hm ⊢
  obtain ⟨⟨⟨⟨⟨⟨hP, h0m⟩, h1m⟩, h2m⟩, h3m⟩, h4m⟩, h5m⟩ := hm
  exact ⟨⟨⟨⟨⟨⟨slotMatch_mono hp hpe (some r.ptype) hP,
    slotMatch_mono h0 h0e r.v0 h0m⟩,
    slotMatch_mono h1 h1e r.v1 h1m⟩,
    slotMatch_mono h2 h2e r.v2 h2m⟩,
    slotMatch_mono h3 h3e r.v3 h3m⟩,
    slotMatch_mono h4 h4e r.v4 h4m⟩,
    slotMatch_mono h5 h5e r.v5 h5m⟩

/-- Witness for the amended C3 at a concrete row and filter pair. -/
theorem C3_filter_monotonicity_amended_witness :
    matchesFilter (mkLine 1 "p" ["y"]) { v0 := ["y", "z"] } = true :=
  C3_filter_monotonicity_amended (mkLine 1 "p" ["y"]) { v0 := ["y"] } { v0 := ["y", "z"] }
    (List.nil_subset _) (fun h => absurd rfl h)
    (by simp) (fun _ => by simp)
    (List.nil_subset _) (fun h => absurd rfl h)
    (List.nil_subset _) (fun h => absurd rfl h)
    (List.nil_subset _) (fun h => absurd rfl h)
    (List.nil_subset _) (fun h => absurd rfl h)
    (List.nil_subset _) (fun h => absurd rfl h)
    (by decide)

/-! ## C6: construction-time configuration errors -/

/-- **C6, counterexample.**  With the DEFAULT row schema
(`db_class=None`), a non-boolean soft-delete flag argument does NOT
fail construction: the `db_class is None` branch never examines
`db_class_softdelete_attribute`, so construction succeeds and
soft-delete is silently disabled. -/
theorem C6_nonboolean_flag_default_schema_cex :
    adapterInit none (some { name := "deleted", typeIsBoolean := false }) false
      = .ok { softdeleteAttribute := none, filtered := false } := rfl

/-- **C6, amended.**  With a CUSTOM schema a non-boolean flag field
raises `ValueError` at construction, and a custom schema missing a
required attribute raises at construction; with the default schema the
flag argument is ignored entirely (construction succeeds, soft-delete
stays disabled). -/
theorem C6_construction_errors_amended (cls : DbClassSpec) (sd : SoftdeleteAttr) (f : Bool) :
    (sd.typeIsBoolean = false → adapterInit (some cls) (some sd) f = .error .valueError)
  ∧ (adapterInit none (some sd) f = .ok { softdeleteAttribute := none, filtered := f })
  ∧ (∀ a ∈ requiredAttrs, cls.attrs.contains a = false →
      ∃ b, adapterInit (some cls) none f = .error (.missingAttr b))
  ∧ (sd.typeIsBoolean = true → ∀ a ∈ requiredAttrs, cls.attrs.contains a = false →
      ∃ b, adapterInit (some cls) (some sd) f = .error (.missingAttr b)) := by
  refine ⟨?_, rfl, ?_, ?_⟩
  · intro h
    simp [adapterInit, h]
  · intro a ha hc
    have hsome : (requiredAttrs.find? (fun attr => !cls.attrs.contains attr)).isSome := by
      rw [List.find?_isSome]
      exact ⟨a, ha, by rw [hc]; rfl⟩
    rcases hfind : requiredAttrs.find? (fun attr => !cls.attrs.contains attr) with _ | b
    · rw [hfind] at hsome
      simp at hsome
    · refine ⟨b, ?_⟩
      have hred : adapterInit (some cls) none f =
          match requiredAttrs.find? (fun attr => !cls.attrs.contains attr) with
          | some a2 => .error (.missingAttr a2)
          | none => .ok { softdeleteAttribute := none, filtered := f } := rfl
      rw [hred, hfind]
  · intro ht a ha hc
    have hsome : (requiredAttrs.find? (fun attr => !cls.attrs.contains attr)).isSome := by
      rw [List.find?_isSome]
      exact ⟨a, ha, by rw [hc]; rfl⟩
    rcases hfind : requiredAttrs.find? (fun attr => !cls.attrs.contains attr) with _ | b
    · rw [hfind] at hsome
      simp at hsome
    · refine ⟨b, ?_⟩
      have hred : adapterInit (some cls) (some sd) f =
          if !sd.typeIsBoolean then .error .valueError
          else match requiredAttrs.find? (fun attr => !cls.attrs.contains attr) with
          | some a2 => .error (.missingAttr a2)
          | none => .ok { softdeleteAttribute := some sd, filtered := f } := rfl
      rw [hred, ht, hfind]
      rfl

/-- Witness for the amended C6: a custom schema with a non-boolean
flag argument fails with `ValueError`. -/
theorem C6_construction_errors_amended_witness :
    adapterInit (some { attrs := ["id"] }) (some { name := "deleted", typeIsBoolean := false })
      false = .error .valueError :=
  (C6_construction_errors_amended { attrs := ["id"] }
    { name := "deleted", typeIsBoolean := false } false).1 rfl

/-! ## C8: span validation and empty-string semantics of
`remove_filtered_policy` -/

/-- **C8.**  `remove_filtered_policy` returns `False` and leaves the
store untouched whenever the start index lies outside `0..5` or the
span `field_index + len(field_values)` lies outside `[1, 6]`; on a
valid span its match predicate constrains exactly the positions whose
supplied value is a non-empty string (an empty string imposes no
constraint instead of matching literally). -/
theorem C8_remove_filtered_policy_spec (soft : Bool) (sec pt : String) (fi : Int)
    (vals : List String) (db : DB) :
    (¬((0 ≤ fi ∧ fi ≤ 5) ∧ (1 ≤ fi + (vals.length : Int) ∧ fi + (vals.length : Int) ≤ 6)) →
      remove_filtered_policy soft sec pt fi vals db = (false, db))
  ∧ (∀ r : CasbinRule, rfpMatch pt fi vals r = true ↔
      (r.ptype = pt ∧ ∀ (i : Nat) (_ : i < vals.length),
        vals[i] ≠ "" → r.getV (fi + (i : Int)).toNat = some (vals[i]))) := by
  constructor
  · intro h
    by_cases h1 : 0 ≤ fi ∧ fi ≤ 5
    · have h2 : ¬(1 ≤ fi + (vals.length : Int) ∧ fi + (vals.length : Int) ≤ 6) := by tauto
      simp [remove_filtered_policy, h1, h2]
    · simp [remove_filtered_policy, h1]
  · intro r
    exact rfpMatch_iff pt fi vals r

/-- Witness for C8: start index 7 is rejected without touching the
single-row store, and on the valid span starting at 1 the
empty-string value at position 1 is skipped while `c` must appear at
position 2 — the row `(p, a, b, c)` matches despite `b ≠ ""`. -/
theorem C8_remove_filtered_policy_spec_witness :
    remove_filtered_policy false "s" "p" 7 ["a"] exDbABC = (false, exDbABC) :=
  (C8_remove_filtered_policy_spec false "s" "p" 7 ["a"] exDbABC).1 (by omega)

/-! ## C9: the `sec` argument is dead -/

/-- **C9.**  Every storage-mutating operation ignores its `sec`
(section) argument: two calls differing only in `sec` produce
identical results and states, because every match and insert is keyed
on `ptype` and field values alone. -/
theorem C9_sec_argument_irrelevant (soft : Bool) (sec1 sec2 pt : String)
    (rule old_rule new_rule : Rule) (rules old_rules new_rules : List Rule)
    (fi : Int) (vals : List String) (db : DB) :
    add_policy sec1 pt rule db = add_policy sec2 pt rule db
  ∧ add_policies sec1 pt rules db = add_policies sec2 pt rules db
  ∧ remove_policy soft sec1 pt rule db = remove_policy soft sec2 pt rule db
  ∧ remove_policies soft sec1 pt rules db = remove_policies soft sec2 pt rules db
  ∧ remove_filtered_policy soft sec1 pt fi vals db
      = remove_filtered_policy soft sec2 pt fi vals db
  ∧ update_policy soft sec1 pt old_rule new_rule db
      = update_policy soft sec2 pt old_rule new_rule db
  ∧ update_policies soft sec1 pt old_rules new_rules db
      = update_policies soft sec2 pt old_rules new_rules db
  ∧ update_filtered_policies soft sec1 pt new_rules fi vals db
      = update_filtered_policies soft sec2 pt new_rules fi vals db :=
  ⟨rfl, rfl, rfl, rfl, rfl, rfl, rfl, rfl⟩

/-! ## C2: update_policy -/

/-- **C2.**  `update_policy` locates the not-deleted rows whose
`ptype` equals the tag and whose fields equal `old_rule`'s values
index by index; zero matches raise `NoResultFound`, several raise
`MultipleResultsFound`, and a unique match is overwritten position by
position up to the longer rule's length, with every position from
`new_rule`'s length up to that longer length set back to NULL. -/
theorem C2_update_policy_spec (soft : Bool) (sec pt : String) (old_rule new_rule : Rule)
    (db : DB) (hlen : old_rule.length ≤ 6) :
    (∀ r2 : CasbinRule, (r2.ptype == pt && valuesMatch r2 old_rule) = true ↔
        (r2.ptype = pt ∧ ∀ (i : Nat) (_ : i < old_rule.length), r2.getV i = some (old_rule[i])))
  ∧ ((db.visibleRows soft).filter (fun r => r.ptype == pt && valuesMatch r old_rule) = [] →
      update_policy soft sec pt old_rule new_rule db = .error .noResultFound)
  ∧ (2 ≤ ((db.visibleRows soft).filter
        (fun r => r.ptype == pt && valuesMatch r old_rule)).length →
      update_policy soft sec pt old_rule new_rule db = .error .multipleResultsFound)
  ∧ (∀ r : CasbinRule,
      (db.visibleRows soft).filter (fun r2 => r2.ptype == pt && valuesMatch r2 old_rule) = [r] →
      update_policy soft sec pt old_rule new_rule db
        = .ok (db.updateRow r.id (overwriteRow r old_rule new_rule))
      ∧ ∀ (i : Nat), i < 6 →
          (overwriteRow r old_rule new_rule).getV i =
            if i < max old_rule.length new_rule.length then new_rule[i]? else r.getV i) := by
  have hred : update_policy soft sec pt old_rule new_rule db =
      match (db.visibleRows soft).filter (fun r => r.ptype == pt && valuesMatch r old_rule) with
      | [] => .error .noResultFound
      | [r] => .ok (db.updateRow r.id (overwriteRow r old_rule new_rule))
      | _ => .error .multipleResultsFound := by
    unfold update_policy
    rw [if_neg (by omega)]
  refine ⟨?_, ?_, ?_, ?_⟩
  · intro r2
    rw [Bool.and_eq_true, beq_iff_eq, valuesMatch_iff]
  · intro hfl
    rw [hred, hfl]
  · intro h2
    rcases hfl : (db.visibleRows soft).filter (fun r => r.ptype == pt && valuesMatch r old_rule)
      with _ | ⟨a, _ | ⟨b, t⟩⟩
    · rw [hfl] at h2; simp at h2
    · rw [hfl] at h2; simp at h2
    · rw [hred, hfl]
  · intro r hfl
    refine ⟨by rw [hred, hfl], ?_⟩
    intro i h6
    rw [overwriteRow_getV]
    split_ifs <;> first | rfl | omega

/-- Witness for C2: updating `["a","b","c"]` to `["x","y"]` on the
single matching row rewrites positions 0 and 1 and sets position 2
back to NULL. -/
theorem C2_update_policy_spec_witness :
    update_policy false "s" "p" ["a", "b", "c"] ["x", "y"]
        { rows := [mkLine 1 "p" ["a", "b", "c"]], nextId := 2 }
      = .ok (DB.updateRow { rows := [mkLine 1 "p" ["a", "b", "c"]], nextId := 2 } 1
          (overwriteRow (mkLine 1 "p" ["a", "b", "c"]) ["a", "b", "c"] ["x", "y"]))
    ∧ (overwriteRow (mkLine 1 "p" ["a", "b", "c"]) ["a", "b", "c"] ["x", "y"]).getV 2 = none :=
  ⟨((C2_update_policy_spec false "s" "p" ["a", "b", "c"] ["x", "y"]
      { rows := [mkLine 1 "p" ["a", "b", "c"]], nextId := 2 } (by decide)).2.2.2
      (mkLine 1 "p" ["a", "b", "c"]) (by decide)).1,
   by decide⟩

/-! ## C5: load_policy -/

theorem insertById_head (r : CasbinRule) (l : List CasbinRule)
    (h : ∀ x ∈ l, r.id ≤ x.id) : insertById r l = r :: l := by
  cases l with
  | nil => rfl
  | cons x xs =>
    unfold insertById
    rw [if_pos (h x (by simp))]

theorem sortById_eq_self (l : List CasbinRule)
    (h : l.Pairwise (fun a b => a.id ≤ b.id)) : sortById l = l := by
  induction l with
  | nil => rfl
  | cons x xs ih =>
    rw [List.pairwise_cons] at h
    unfold sortById
    rw [ih h.2, insertById_head x xs h.1]

/-- **C5, counterexample.**  `load_policy` issues its SELECT without
any ORDER BY, so it delivers rows in the storage's own enumeration
order, not necessarily ascending `id`: a store enumerating the row
with id 2 before the row with id 1 is delivered in that order. -/
theorem C5_load_policy_id_order_cex :
    load_policy false { rows := [mkLine 2 "p" ["x"], mkLine 1 "p" ["y"]], nextId := 3 }
      ≠ (sortById (DB.visibleRows
          { rows := [mkLine 2 "p" ["x"], mkLine 1 "p" ["y"]], nextId := 3 } false)).map
            CasbinRule.lineTokens := by
  decide

/-- **C5, amended.**  `load_policy` populates the model from exactly
the rows whose soft-delete flag is not set (a flagged row is never
delivered, and the store itself is not modified by loading), in the
storage's enumeration order; that order coincides with ascending `id`
whenever the storage enumerates its rows id-sorted, but the query
itself requests no ordering. -/
theorem C5_load_policy_amended (soft : Bool) (db : DB) :
    (∀ t : List String, t ∈ load_policy soft db ↔
      ∃ r ∈ db.rows, (soft = true → r.deleted = false) ∧ t = r.lineTokens)
  ∧ (db.rows.Pairwise (fun a b => a.id ≤ b.id) →
      load_policy soft db
        = (sortById (db.visibleRows soft)).map CasbinRule.lineTokens) := by
  constructor
  · intro t
    cases soft with
    | false =>
      show t ∈ db.rows.map CasbinRule.lineTokens ↔ _
      rw [List.mem_map]
      constructor
      · rintro ⟨r, hr, he⟩
        exact ⟨r, hr, fun h => absurd h (by decide), he.symm⟩
      · rintro ⟨r, hr, _, he⟩
        exact ⟨r, hr, he.symm⟩
    | true =>
      show t ∈ (db.rows.filter (fun r => !r.deleted)).map CasbinRule.lineTokens ↔ _
      rw [List.mem_map]
      constructor
      · rintro ⟨r, hr, he⟩
        rw [List.mem_filter] at hr
        exact ⟨r, hr.1, fun _ => by simpa using hr.2, he.symm⟩
      · rintro ⟨r, hr, hd, he⟩
        exact ⟨r, List.mem_filter.mpr ⟨hr, by simp [hd rfl]⟩, he.symm⟩
  · intro hsorted
    have hvp : (db.visibleRows soft).Pairwise (fun a b => a.id ≤ b.id) := by
      cases soft with
      | false => exact hsorted
      | true => exact hsorted.sublist (List.filter_sublist _)
    rw [sortById_eq_self _ hvp]
    rfl

/-- Witness for the amended C5: a store holding a flagged and an
unflagged row delivers exactly the unflagged row's line, and on this
id-sorted store the delivery is in id order. -/
theorem C5_load_policy_amended_witness :
    load_policy true exDbFlagged
      = (sortById (exDbFlagged.visibleRows true)).map CasbinRule.lineTokens :=
  (C5_load_policy_amended true exDbFlagged).2 (by decide)

/-! ## C1: soft-mode save_policy reconciliation -/

/-- **C1** (code bug, evaluated at the failing input).  Soft-mode
`save_policy` filters for an existing row using only `old` positions
`0..len(rule)-1`, never requiring the columns past the rule's length
to be NULL.  On a store whose only visible row is `(p, a, b, c)` and a
model holding only `p, ["a", "b"]`: the insert phase finds the
`(a,b,c)` row through that too-weak filter and inserts nothing, then
the flag phase flags that same row because `["a","b","c"]` is no
longer in the model — so the engine's rule `["a","b"]`, which has no
stored row equal to it, ends the save with ZERO visible rows instead
of the exactly one freshly inserted row the claim (and §4.6's "exact
field values") promises. -/
theorem C1_save_policy_soft_weak_match_bug :
    save_policy true exDbABC exModelAB = .ok exDbABCFlagged
    ∧ exDbABCFlagged.visibleRows true = []
    ∧ exModelAB.hasPolicy "p" "p" ["a", "b"] = true
    ∧ (mkLine 1 "p" ["a", "b", "c"]).ruleOf = ["a", "b", "c"] := by
  decide

/-! ## C4: update_filtered_policies -/

/-- **C4** (code bug, evaluated at the failing input).  The
slot-filling loop of `update_filtered_policies` runs `i` from 0 and
`break`s as soon as `field_index <= i` fails, so for any
`field_index > 0` it breaks on the first iteration and no value is
ever placed: the filter degenerates to the bare policy type.  With
`field_index = 1` and value `"X"`, the row `(p, bob, data2, write)` —
whose `v1` is `"data2"`, not `"X"` — is still matched, removed, and
returned. -/
theorem C4_update_filtered_policies_startIndex_bug :
    update_filtered_policies false "p" "p" [] 1 ["X"] exDbBob
      = .ok ([["bob", "data2", "write"]], { rows := [], nextId := 2 })
    ∧ (mkLine 1 "p" ["bob", "data2", "write"]).getV 1 ≠ some "X" := by
  decide

/-! ## C7: save_policy idempotence -/

theorem insert_fold_noop (entries : List (String × String × Rule)) (db : DB)
    (h : ∀ e ∈ entries, e.2.2.length ≤ 6 ∧
      ((db.visibleRows true).filter
        (fun r2 => r2.ptype == e.2.1 && valuesMatch r2 e.2.2)).length = 1) :
    entries.foldlM insertStep db = .ok db := by
  induction entries with
  | nil => rfl
  | cons e es ih =>
    rw [List.foldlM_cons]
    obtain ⟨hlen, hone⟩ := h e (by simp)
    have hstep : insertStep db e = .ok db := by
      unfold insertStep
      rw [if_neg (by omega)]
      rcases hfl : (db.visibleRows true).filter
          (fun r2 => r2.ptype == e.2.1 && valuesMatch r2 e.2.2) with _ | ⟨a, _ | ⟨b, t⟩⟩
      · rw [hfl] at hone; simp at hone
      · rw [hfl]
      · rw [hfl] at hone; simp at hone
    rw [hstep]
    exact ih (fun e2 he2 => h e2 (by simp [he2]))

theorem flag_fold_noop (m : Model) (lines : List CasbinRule) (db : DB)
    (h : ∀ line ∈ lines, line.ptype ≠ "" ∧
      m.hasPolicy (line.ptype.take 1) line.ptype line.ruleOf = true) :
    lines.foldlM (flagStep m) db = .ok db := by
  induction lines with
  | nil => rfl
  | cons line ls ih =>
    rw [List.foldlM_cons]
    obtain ⟨hne, hhas⟩ := h line (by simp)
    have hstep : flagStep m db line = .ok db := by
      unfold flagStep
      rw [if_neg hne, if_pos hhas]
    rw [hstep]
    exact ih (fun l2 hl2 => h l2 (by simp [hl2]))

theorem ruleOf_mkLine (idv : Nat) (pt : String) (rule : Rule) :
    (mkLine idv pt rule).ruleOf = rule.take 6 := by
  rcases rule with _ | ⟨a, _ | ⟨b, _ | ⟨c, _ | ⟨d, _ | ⟨e, _ | ⟨f, rest⟩⟩⟩⟩⟩⟩ <;>
    simp [mkLine, CasbinRule.ruleOf, CasbinRule.fieldsList]

theorem save_policy_hard_tuples (db : DB) (m : Model) :
    (save_policy_hard db m).rows.map (fun r => (r.ptype, r.ruleOf))
      = (modelEntries m).map (fun e => (e.2.1, e.2.2.take 6)) := by
  have hfold : ∀ (entries : List (String × String × Rule)) (d : DB),
      ((entries.foldl (fun d2 e => save_policy_line d2 e.2.1 e.2.2) d).rows).map
        (fun r => (r.ptype, r.ruleOf))
      = d.rows.map (fun r => (r.ptype, r.ruleOf))
        ++ entries.map (fun e => (e.2.1, e.2.2.take 6)) := by
    intro entries
    induction entries with
    | nil => intro d; simp
    | cons e es ih =>
      intro d
      rw [List.foldl_cons, ih]
      simp [save_policy_line, ruleOf_mkLine]
      rfl
  unfold save_policy_hard
  rw [hfold]
  simp

/-- **C7, counterexample.**  Run twice with an unchanged model,
`save_policy` does produce new inserted rows on the second run in both
modes: in hard mode the second run rewrites the whole table, so the
surviving row is a physically fresh insert (id 1, absent from the
first run's result); in soft mode, the weak insert-phase filter can
leave a model rule with no visible row after the first run (see C1),
and the second run then inserts a row for it. -/
theorem C7_save_policy_idempotence_cex :
    (save_policy false exDb0 exModelA = .ok exDbA1
      ∧ save_policy false exDbA1 exModelA = .ok exDbA2
      ∧ mkLine 1 "p" ["a"] ∈ exDbA2.rows ∧ mkLine 1 "p" ["a"] ∉ exDbA1.rows)
  ∧ (save_policy true exDbABC exModelAB = .ok exDbABCFlagged
      ∧ save_policy true exDbABCFlagged exModelAB = .ok exDbABCFlagged2
      ∧ mkLine 2 "p" ["a", "b"] ∈ exDbABCFlagged2.rows
      ∧ mkLine 2 "p" ["a", "b"] ∉ exDbABCFlagged.rows) := by
  decide

/-- **C7, amended.**  In hard-delete mode a second `save_policy` with
an unchanged model rewrites the table — physically fresh rows — but
leaves the stored `(ptype, rule)` tuples unchanged.  In soft-delete
mode, if after the first run every model entry matches exactly one
visible row under the insert-phase filter and every visible row's
reconstructed rule is still held by the engine under its derived
section, then the second run is a complete no-op: no inserts and no
newly flagged rows (the state is returned unchanged). -/
theorem C7_save_policy_idempotence_amended (db : DB) (m : Model) (db1 dbh dbh2 : DB)
    (hh1 : save_policy false db m = .ok dbh)
    (hh2 : save_policy false dbh m = .ok dbh2)
    (_hs1 : save_policy true db m = .ok db1)
    (hone : ∀ e ∈ modelEntries m, e.2.2.length ≤ 6 ∧
      ((db1.visibleRows true).filter
        (fun r2 => r2.ptype == e.2.1 && valuesMatch r2 e.2.2)).length = 1)
    (hin : ∀ r ∈ db1.visibleRows true, r.ptype ≠ "" ∧
      m.hasPolicy (r.ptype.take 1) r.ptype r.ruleOf = true) :
    dbh2.rows.map (fun r => (r.ptype, r.ruleOf)) = dbh.rows.map (fun r => (r.ptype, r.ruleOf))
    ∧ save_policy true db1 m = .ok db1 := by
  constructor
  · have e1 : dbh = save_policy_hard db m := by
      have := hh1
      unfold save_policy at this
      simp at this
      exact this.symm
    have e2 : dbh2 = save_policy_hard dbh m := by
      have := hh2
      unfold save_policy at this
      simp at this
      exact this.symm
    rw [e1, e2, save_policy_hard_tuples, save_policy_hard_tuples]
  · show save_policy_soft db1 m = .ok db1
    unfold save_policy_soft
    rw [insert_fold_noop (modelEntries m) db1 hone]
    exact flag_fold_noop m (db1.visibleRows true) db1 hin

/-- Witness for the amended C7 at a concrete store and model: saving
the one-rule model into the empty store and saving again. -/
theorem C7_save_policy_idempotence_amended_witness :
    exDbA2.rows.map (fun r => (r.ptype, r.ruleOf))
      = exDbA1.rows.map (fun r => (r.ptype, r.ruleOf))
    ∧ save_policy true exDbA1 exModelA = .ok exDbA1 :=
  C7_save_policy_idempotence_amended exDb0 exModelA exDbA1 exDbA1 exDbA2
    (by decide) (by decide) (by decide) (by decide) (by decide)

/-! ## C10: the trailing-unset row-shape invariant -/

theorem getV_deleted_irrel (r : CasbinRule) (j : Nat) :
    ({ r with deleted := true } : CasbinRule).getV j = r.getV j := by
  rcases j with _|_|_|_|_|_|j <;> rfl

theorem rowShapeOk_mkLine (idv : Nat) (pt : String) (rule : Rule) :
    RowShapeOk (mkLine idv pt rule) := by
  intro k hk j hj hnone
  rw [mkLine_getV] at hnone ⊢
  rw [if_pos (by omega)] at hnone
  rw [if_pos hk]
  rw [List.getElem?_eq_none_iff] at hnone ⊢
  omega

theorem rowShapeOk_setDel {r : CasbinRule} (h : RowShapeOk r) :
    RowShapeOk { r with deleted := true } := by
  intro k hk j hj hnone
  rw [getV_deleted_irrel] at hnone ⊢
  exact h k hk j hj hnone

theorem dbShapeOk_filter (db : DB) (p : CasbinRule → Bool) (h : DBShapeOk db) :
    DBShapeOk { db with rows := db.rows.filter p } :=
  fun r hr => h r (List.mem_filter.mp hr).1

theorem dbShapeOk_setDeleted (db : DB) (i : Nat) (h : DBShapeOk db) :
    DBShapeOk (db.setDeleted i) := by
  intro r hr
  unfold DB.setDeleted at hr
  rw [List.mem_map] at hr
  obtain ⟨x, hx, hxr⟩ := hr
  by_cases hid : x.id = i
  · rw [if_pos hid] at hxr
    rw [← hxr]
    exact rowShapeOk_setDel (h x hx)
  · rw [if_neg hid] at hxr
    rw [← hxr]
    exact h x hx

theorem dbShapeOk_setDeletedMany (db : DB) (ids : List Nat) (h : DBShapeOk db) :
    DBShapeOk (db.setDeletedMany ids) := by
  induction ids generalizing db with
  | nil => exact h
  | cons i is ih =>
    exact ih (db.setDeleted i) (dbShapeOk_setDeleted db i h)

theorem dbShapeOk_save_policy_line (db : DB) (pt : String) (rule : Rule)
    (h : DBShapeOk db) : DBShapeOk (save_policy_line db pt rule) := by
  intro r hr
  unfold save_policy_line at hr
  rw [List.mem_append] at hr
  rcases hr with hr | hr
  · exact h r hr
  · rw [List.mem_singleton] at hr
    rw [hr]
    exact rowShapeOk_mkLine db.nextId pt rule

theorem dbShapeOk_lines_foldl (pt : String) (rules : List Rule) (db : DB)
    (h : DBShapeOk db) :
    DBShapeOk (rules.foldl (fun d r => save_policy_line d pt r) db) := by
  induction rules generalizing db with
  | nil => exact h
  | cons r rs ih =>
    exact ih (save_policy_line db pt r) (dbShapeOk_save_policy_line db pt r h)

theorem dbShapeOk_updateRow (db : DB) (i : Nat) (r2 : CasbinRule)
    (h : DBShapeOk db) (h2 : RowShapeOk r2) : DBShapeOk (db.updateRow i r2) := by
  intro r hr
  unfold DB.updateRow at hr
  rw [List.mem_map] at hr
  obtain ⟨x, hx, hxr⟩ := hr
  by_cases hid : x.id = i
  · rw [if_pos hid] at hxr
    rw [← hxr]
    exact h2
  · rw [if_neg hid] at hxr
    rw [← hxr]
    exact h x hx

theorem mem_visibleRows (db : DB) (soft : Bool) (r : CasbinRule)
    (h : r ∈ db.visibleRows soft) : r ∈ db.rows := by
  cases soft with
  | false => exact h
  | true => exact (List.mem_filter.mp h).1

/-- The overwrite of `update_policy` preserves the trailing-unset
shape provided the new rule is at least as long as the old one, or
the rewritten row has nothing stored past the old rule's length. -/
theorem rowShapeOk_overwrite (r : CasbinRule) (old_rule new_rule : Rule)
    (hr : RowShapeOk r)
    (hcond : old_rule.length ≤ new_rule.length ∨
      ∀ i : Nat, old_rule.length ≤ i → i < 6 → r.getV i = none) :
    RowShapeOk (overwriteRow r old_rule new_rule) := by
  intro k hk j hj hnone
  rw [overwriteRow_getV] at hnone ⊢
  by_cases hkL : k < max old_rule.length new_rule.length
  · rw [if_pos ⟨hkL, hk⟩]
    by_cases hjL : j < max old_rule.length new_rule.length
    · rw [if_pos ⟨hjL, by omega⟩] at hnone
      rw [List.getElem?_eq_none_iff] at hnone ⊢
      omega
    · omega
  · rw [if_neg (by omega)]
    rcases hcond with hc | hc
    · by_cases hjL : j < max old_rule.length new_rule.length
      · rw [if_pos ⟨hjL, by omega⟩] at hnone
        rw [List.getElem?_eq_none_iff] at hnone
        omega
      · rw [if_neg (by omega)] at hnone
        exact hr k hk j hj hnone
    · exact hc k (by omega) hk

theorem insertStep_preserve (b : DB) (e : String × String × Rule) (b2 : DB)
    (h : insertStep b e = .ok b2) (hp : DBShapeOk b) : DBShapeOk b2 := by
  unfold insertStep at h
  split at h
  · exact absurd h (by simp)
  · split at h
    · rw [Except.ok.injEq] at h
      rw [← h]
      exact dbShapeOk_save_policy_line b e.2.1 e.2.2 hp
    · rw [Except.ok.injEq] at h
      rw [← h]
      exact hp
    · exact absurd h (by simp)

theorem flagStep_preserve (m : Model) (b : DB) (line : CasbinRule) (b2 : DB)
    (h : flagStep m b line = .ok b2) (hp : DBShapeOk b) : DBShapeOk b2 := by
  unfold flagStep at h
  split at h
  · exact absurd h (by simp)
  · split at h
    · rw [Except.ok.injEq] at h
      rw [← h]
      exact hp
    · rw [Except.ok.injEq] at h
      rw [← h]
      exact dbShapeOk_setDeleted b line.id hp

theorem foldlM_except_preserve {α β : Type} (P : β → Prop) (step : β → α → Except Err β)
    (hstep : ∀ b a b2, step b a = .ok b2 → P b → P b2) :
    ∀ (l : List α) (b b2 : β), l.foldlM step b = .ok b2 → P b → P b2 := by
  intro l
  induction l with
  | nil =>
    intro b b2 h hp
    rw [List.foldlM_nil] at h
    rw [← Except.ok.inj h]
    exact hp
  | cons a l2 ih =>
    intro b b2 h hp
    rw [List.foldlM_cons] at h
    rcases hsa : step b a with e | b1
    · rw [hsa] at h
      exact Except.noConfusion h
    · rw [hsa] at h
      exact ih b1 b2 h (hstep b a b1 hsa hp)

theorem dbShapeOk_entries_foldl (entries : List (String × String × Rule)) (db : DB)
    (h : DBShapeOk db) :
    DBShapeOk (entries.foldl (fun d e => save_policy_line d e.2.1 e.2.2) db) := by
  induction entries generalizing db with
  | nil => exact h
  | cons e es ih =>
    exact ih (save_policy_line db e.2.1 e.2.2) (dbShapeOk_save_policy_line db e.2.1 e.2.2 h)

/-- **C10, counterexample.**  `update_policy` breaks the
trailing-unset shape: the store holding the well-shaped row
`(p, a, b, c)` is matched by `old_rule = ["a","b"]` through the
per-index filter (the row's extra `c` is not inspected), and
rewriting to `["x"]` nulls position 1 while position 2 keeps `c` —
an unset slot followed by a present one. -/
theorem C10_shape_invariant_cex :
    DBShapeOk exDbABC
    ∧ update_policy false "p" "p" ["a", "b"] ["x"] exDbABC = .ok exDbBroken
    ∧ ¬ DBShapeOk exDbBroken := by
  decide

/-- **C10, amended.**  Every mutating operation preserves the
trailing-unset row shape except `update_policy`, which preserves it
only when the new rule is at least as long as the old one or the
matched row stores nothing past the old rule's length (matching is
per-index, so a longer row can be matched by a shorter old rule and
then acquire a NULL gap — see the counterexample). -/
theorem C10_shape_invariant_amended (soft : Bool) (sec pt : String)
    (rule old_rule new_rule : Rule) (rules : List Rule) (fi : Int) (vals : List String)
    (db : DB) (m : Model) (hwf : DBShapeOk db) :
    DBShapeOk (add_policy sec pt rule db)
  ∧ (∀ db2, add_policies sec pt rules db = .ok db2 → DBShapeOk db2)
  ∧ (∀ b2 db2, remove_policy soft sec pt rule db = .ok (b2, db2) → DBShapeOk db2)
  ∧ (∀ db2, remove_policies soft sec pt rules db = .ok db2 → DBShapeOk db2)
  ∧ DBShapeOk (remove_filtered_policy soft sec pt fi vals db).2
  ∧ (∀ db2, save_policy soft db m = .ok db2 → DBShapeOk db2)
  ∧ (∀ db2, update_policy soft sec pt old_rule new_rule db = .ok db2 →
      (old_rule.length ≤ new_rule.length ∨
        (∀ r ∈ db.rows, (r.ptype == pt && valuesMatch r old_rule) = true →
          ∀ i : Nat, old_rule.length ≤ i → i < 6 → r.getV i = none)) →
      DBShapeOk db2) := by
  refine ⟨dbShapeOk_save_policy_line db pt rule hwf, ?_, ?_, ?_, ?_, ?_, ?_⟩
  · intro db2 h
    unfold add_policies at h
    split at h
    · rw [← Except.ok.inj h]
      exact hwf
    · split at h
      · exact absurd h (by simp)
      · rw [← Except.ok.inj h]
        exact dbShapeOk_lines_foldl pt rules db hwf
  · intro b2 db2 h
    unfold remove_policy at h
    split at h
    · exact absurd h (by simp)
    · split at h
      · injection h with h1
        injection h1 with _ hb
        rw [← hb]
        exact dbShapeOk_setDeletedMany db _ hwf
      · injection h with h1
        injection h1 with _ hb
        rw [← hb]
        exact dbShapeOk_filter db _ hwf
  · intro db2 h
    unfold remove_policies at h
    split at h
    · rw [← Except.ok.inj h]
      exact hwf
    · split at h
      · exact absurd h (by simp)
      · split at h
        · rw [← Except.ok.inj h]
          exact dbShapeOk_setDeletedMany db _ hwf
        · rw [← Except.ok.inj h]
          exact dbShapeOk_filter db _ hwf
  · unfold remove_filtered_policy
    split_ifs
    · exact dbShapeOk_setDeletedMany db _ hwf
    · exact dbShapeOk_filter db _ hwf
    · exact hwf
    · exact hwf
  · intro db2 h
    cases soft with
    | false =>
      have h2 : save_policy_hard db m = db2 := Except.ok.inj h
      rw [← h2]
      unfold save_policy_hard
      exact dbShapeOk_entries_foldl (modelEntries m) _ (fun r hr => absurd hr (List.not_mem_nil r))
    | true =>
      have h2 : save_policy_soft db m = .ok db2 := h
      unfold save_policy_soft at h2
      rcases hins : (modelEntries m).foldlM insertStep db with e | db1
      · rw [hins] at h2
        exact Except.noConfusion h2
      · rw [hins] at h2
        have hdb1 : DBShapeOk db1 :=
          foldlM_except_preserve DBShapeOk insertStep insertStep_preserve
            (modelEntries m) db db1 hins hwf
        exact foldlM_except_preserve DBShapeOk (flagStep m) (flagStep_preserve m)
          (db.visibleRows true) db1 db2 h2 hdb1
  · intro db2 h hcond
    by_cases hol : 6 < old_rule.length
    · unfold update_policy at h
      rw [if_pos hol] at h
      exact absurd h (by simp)
    · have hred : update_policy soft sec pt old_rule new_rule db =
          match (db.visibleRows soft).filter
            (fun r => r.ptype == pt && valuesMatch r old_rule) with
          | [] => .error .noResultFound
          | [r] => .ok (db.updateRow r.id (overwriteRow r old_rule new_rule))
          | _ => .error .multipleResultsFound := by
        unfold update_policy
        rw [if_neg hol]
      rw [hred] at h
      rcases hfl : (db.visibleRows soft).filter
          (fun r => r.ptype == pt && valuesMatch r old_rule) with _ | ⟨r, _ | ⟨rx, t⟩⟩
      · rw [hfl] at h
        exact absurd h (by simp)
      · rw [hfl] at h
        have hrmem : r ∈ (db.visibleRows soft).filter
            (fun r2 => r2.ptype == pt && valuesMatch r2 old_rule) := by
          rw [hfl]
          exact List.mem_singleton_self r
        have hrdb : r ∈ db.rows := mem_visibleRows db soft r (List.mem_filter.mp hrmem).1
        have hrpred := (List.mem_filter.mp hrmem).2
        rw [← Except.ok.inj h]
        refine dbShapeOk_updateRow db r.id _ hwf (rowShapeOk_overwrite r old_rule new_rule
          (hwf r hrdb) ?_)
        rcases hcond with hc | hc
        · exact Or.inl hc
        · exact Or.inr (hc r hrdb hrpred)
      · rw [hfl] at h
        exact absurd h (by simp)

/-- Witness for the amended C10: adding a rule to the well-shaped
store keeps it well-shaped, and the arity-shrinking update
`["a","b","c"] → ["x","y"]` (whose matched row has nothing past
position 2) leaves the well-shaped row `(p, x, y)`. -/
theorem C10_shape_invariant_amended_witness :
    DBShapeOk (add_policy "s" "p" ["z"] exDbABC) ∧ DBShapeOk exDbXY :=
  ⟨(C10_shape_invariant_amended false "s" "p" ["z"] ["a", "b", "c"] ["x", "y"] []
      0 [] exDbABC exModelA (by decide)).1,
   (C10_shape_invariant_amended false "s" "p" ["z"] ["a", "b", "c"] ["x", "y"] []
      0 [] exDbABC exModelA (by decide)).2.2.2.2.2.2 exDbXY (by decide)
      (Or.inr (by decide))⟩

end CasbinAdapter
